import Mathlib

/-!
Shallow embedding of the rust-keylime configuration module (`src/common.rs`):
the symmetric-key primitive `SymmKey`, the persisted TPM identity record
`TpmData`, the configuration lookup functions `config_file_get`, `config_get`,
`config_get_env`, the UUID resolution function `get_uuid`, and the
configuration builder `KeylimeConfig.build`.

Machine integers are modelled as `Nat` (bytes are produced only by operations
that stay below 256, so no explicit truncation is needed for the claims at
hand); Rust `Result` is modelled as `Except`; the process environment, the
INI configuration file store and the filesystem are explicit function
arguments (`String → Option _`).
-/

set_option autoImplicit false

namespace Keylime

/-- Error type modelling the variants of the repository's `Error` enum that
`common.rs` can produce (`Error::Configuration`, `Error::Other`, plus the
conversions from `ini`, `std::str::ParseBoolError`, I/O, `serde_json` and
the algorithm parsers used via `?`). -/
inductive Error where
  | Configuration (msg : String)
  | Other (msg : String)
  | IniLoad
  | ParseBool
  | IoErr (path : String)
  | SerdeJson
  | AlgParse (s : String)
  deriving DecidableEq, Repr

/-- Rust constant `AES_128_KEY_LEN`. -/
def AES_128_KEY_LEN : Nat := 16
/-- Rust constant `AES_256_KEY_LEN`. -/
def AES_256_KEY_LEN : Nat := 32
/-- Rust static `DEFAULT_CONFIG`. -/
def DEFAULT_CONFIG : String := "/etc/keylime.conf"
/-- Rust static `WORK_DIR`. -/
def WORK_DIR : String := "/var/lib/keylime"
/-- Rust static `TPM_DATA`. -/
def TPM_DATA : String := "tpmdata.json"
/-- Rust static `DEFAULT_CA_PATH` (relative from the working directory). -/
def DEFAULT_CA_PATH : String := "cv_ca/cacert.crt"
/-- Rust static `REV_ACTIONS_DIR`. -/
def REV_ACTIONS_DIR : String := "/usr/libexec/keylime"
/-- Rust static `REV_ACTIONS`. -/
def REV_ACTIONS : String := ""
/-- Rust const `MTLS_ENABLED`. -/
def MTLS_ENABLED : Bool := true
/-- Rust static `ALLOW_PAYLOAD_REV_ACTIONS`. -/
def ALLOW_PAYLOAD_REV_ACTIONS : Bool := true
/-- Rust static `ALLOW_INSECURE_PAYLOAD`. -/
def ALLOW_INSECURE_PAYLOAD : Bool := false

instance {ε α : Type} [DecidableEq ε] [DecidableEq α] :
    DecidableEq (Except ε α) := fun a b =>
  match a, b with
  | .ok x, .ok y =>
    if h : x = y then isTrue (by rw [h]) else isFalse (by simp [h])
  | .error x, .error y =>
    if h : x = y then isTrue (by rw [h]) else isFalse (by simp [h])
  | .ok _, .error _ => isFalse (by simp)
  | .error _, .ok _ => isFalse (by simp)

/-- ASCII lowercasing of one character, modelling the effect of Rust
`str::to_lowercase` on the ASCII configuration values at hand. -/
def charToLower (c : Char) : Char :=
  if 65 ≤ c.toNat ∧ c.toNat ≤ 90 then Char.ofNat (c.toNat + 32) else c

/-- Rust `str::to_lowercase`. -/
def strToLower (s : String) : String :=
  String.mk (s.data.map charToLower)

/-- `SymmKey` from `common.rs`: a wrapper around a byte vector. -/
structure SymmKey where
  bytes : List Nat
  deriving DecidableEq, Repr

/-- `SymmKey::xor` from `common.rs`: errors when the two keys have different
lengths, otherwise produces the position-wise exclusive-or (the Rust code
zips the two byte slices into a fresh output buffer of the common length). -/
def SymmKey.xor (self other : SymmKey) : Except Error SymmKey :=
  if self.bytes.length ≠ other.bytes.length then
    .error (.Other "cannot xor differing length slices")
  else
    .ok ⟨List.zipWith Nat.xor self.bytes other.bytes⟩

/-- `impl TryFrom<&[u8]> for SymmKey` from `common.rs`: accepts only the two
AES key lengths and otherwise reports the observed length in the error
string (the Rust error type here is `String`). -/
def SymmKey.try_from (v : List Nat) : Except String SymmKey :=
  if v.length = AES_128_KEY_LEN ∨ v.length = AES_256_KEY_LEN then
    .ok ⟨v⟩
  else
    .error ("key length " ++ toString v.length ++
      " does not correspond to valid GCM cipher")

/-- Modelled from the spec: the hash algorithm selection (`algorithms.rs` is
not part of the shown source; the spec only requires an exact-match
algorithm tag parsed from a configuration string). -/
inductive HashAlgorithm where
  | Sha1 | Sha256 | Sha384 | Sha512
  deriving DecidableEq, Repr

/-- Modelled from the spec: the signing algorithm selection (`algorithms.rs`
is not part of the shown source). -/
inductive SignAlgorithm where
  | RsaSsa | RsaPss | EcDsa
  deriving DecidableEq, Repr

/-- Modelled from the spec: the encryption algorithm selection
(`algorithms.rs` is not part of the shown source). -/
inductive EncryptionAlgorithm where
  | Rsa | Ecc
  deriving DecidableEq, Repr

/-- Modelled from the spec: `HashAlgorithm::try_from(&str)` parses the
configured hash algorithm tag. -/
def HashAlgorithm.try_from (s : String) : Except Error HashAlgorithm :=
  if s = "sha1" then .ok .Sha1
  else if s = "sha256" then .ok .Sha256
  else if s = "sha384" then .ok .Sha384
  else if s = "sha512" then .ok .Sha512
  else .error (.AlgParse s)

/-- Modelled from the spec: `SignAlgorithm::try_from(&str)` parses the
configured signing algorithm tag. -/
def SignAlgorithm.try_from (s : String) : Except Error SignAlgorithm :=
  if s = "rsassa" then .ok .RsaSsa
  else if s = "rsapss" then .ok .RsaPss
  else if s = "ecdsa" then .ok .EcDsa
  else .error (.AlgParse s)

/-- Modelled from the spec: `EncryptionAlgorithm::try_from(&str)` parses the
configured encryption algorithm tag. -/
def EncryptionAlgorithm.try_from (s : String) : Except Error EncryptionAlgorithm :=
  if s = "rsa" then .ok .Rsa
  else if s = "ecc" then .ok .Ecc
  else .error (.AlgParse s)

/-- `TpmData` from `common.rs`: the persisted identity record.  The opaque
`TpmsContext` execution-context blob (an external `tss_esapi` type) is
modelled as a byte list. -/
structure TpmData where
  ak_hash_alg : HashAlgorithm
  ak_sign_alg : SignAlgorithm
  ak_context : List Nat
  deriving DecidableEq, Repr

/-- `TpmData::valid` from `common.rs`. -/
def TpmData.valid (self : TpmData) (hash_alg : HashAlgorithm)
    (sign_alg : SignAlgorithm) : Bool :=
  hash_alg = self.ak_hash_alg ∧ sign_alg = self.ak_sign_alg

/-- JSON documents, modelling the values `serde_json` reads and writes. -/
inductive Json where
  | str (s : String)
  | num (n : Nat)
  | arr (l : List Json)
  | obj (l : List (String × Json))

/-- Modelled from the spec: the serde tag of a `HashAlgorithm` value. -/
def hashAlgTag : HashAlgorithm → String
  | .Sha1 => "sha1"
  | .Sha256 => "sha256"
  | .Sha384 => "sha384"
  | .Sha512 => "sha512"

/-- Modelled from the spec: decode a serde `HashAlgorithm` tag. -/
def hashAlgOfTag (s : String) : Option HashAlgorithm :=
  if s = "sha1" then some .Sha1
  else if s = "sha256" then some .Sha256
  else if s = "sha384" then some .Sha384
  else if s = "sha512" then some .Sha512
  else none

/-- Modelled from the spec: the serde tag of a `SignAlgorithm` value. -/
def signAlgTag : SignAlgorithm → String
  | .RsaSsa => "rsassa"
  | .RsaPss => "rsapss"
  | .EcDsa => "ecdsa"

/-- Modelled from the spec: decode a serde `SignAlgorithm` tag. -/
def signAlgOfTag (s : String) : Option SignAlgorithm :=
  if s = "rsassa" then some .RsaSsa
  else if s = "rsapss" then some .RsaPss
  else if s = "ecdsa" then some .EcDsa
  else none

/-- Modelled from the spec: the `serde_json` serialization of a `TpmData`
record, as written by `TpmData::store` via `to_writer_pretty` (a JSON
object with the three derived fields). -/
def TpmData.serialize (d : TpmData) : Json :=
  .obj [("ak_hash_alg", .str (hashAlgTag d.ak_hash_alg)),
        ("ak_sign_alg", .str (signAlgTag d.ak_sign_alg)),
        ("ak_context", .arr (d.ak_context.map .num))]

/-- Decode one serialized context byte. -/
def jsonByte : Json → Option Nat
  | .num n => some n
  | _ => none

/-- Decode a serialized context blob, one byte at a time. -/
def jsonBytes : List Json → Option (List Nat)
  | [] => some []
  | .num b :: js =>
    match jsonBytes js with
    | some bs => some (b :: bs)
    | none => none
  | _ :: _ => none

/-- Modelled from the spec: the `serde_json` deserialization of a `TpmData`
record, as read by `TpmData::load` via `from_reader`. -/
def TpmData.deserialize : Json → Option TpmData
  | .obj [("ak_hash_alg", .str h), ("ak_sign_alg", .str s),
          ("ak_context", .arr ctx)] =>
    match hashAlgOfTag h, signAlgOfTag s, jsonBytes ctx with
    | some ha, some sa, some c => some ⟨ha, sa, c⟩
    | _, _, _ => none
  | _ => none

/-- `TpmData::load` from `common.rs`: open the file at `path` (an I/O error
when absent) and deserialize its contents (a serde error when malformed).
The filesystem is an explicit map from paths to stored JSON documents. -/
def TpmData.load (path : String) (fs : String → Option Json) :
    Except Error TpmData :=
  match fs path with
  | none => .error (.IoErr path)
  | some j =>
    match TpmData.deserialize j with
    | some d => .ok d
    | none => .error .SerdeJson

/-- `TpmData::store` from `common.rs`: create/truncate the file at `path`
and write the serialized record, returning the updated filesystem. -/
def TpmData.store (d : TpmData) (path : String)
    (fs : String → Option Json) : String → Option Json :=
  fun p => if p = path then some (TpmData.serialize d) else fs p

/-- An INI configuration document: an ordered list of sections, each an
ordered list of key/value properties (modelling the `ini` crate's `Ini`). -/
structure IniFile where
  sections : List (String × List (String × String))
  deriving DecidableEq, Repr

/-- Lookup of a section by name, as `Ini::section`. -/
def IniFile.sectionGet (conf : IniFile) (name : String) :
    Option (List (String × String)) :=
  List.lookup name conf.sections

/-- Lookup of a key inside a section's property list. -/
def propsGet (props : List (String × String)) (key : String) : Option String :=
  List.lookup key props

/-- `config_file_get` from `common.rs`: the configuration file path comes
from the `KEYLIME_CONFIG` environment variable when it is set and
non-empty, else the fixed default path. -/
def config_file_get (env : String → Option String) : String :=
  match env "KEYLIME_CONFIG" with
  | some cfg => if cfg ≠ "" then cfg else DEFAULT_CONFIG
  | none => DEFAULT_CONFIG

/-- `config_get` from `common.rs`: load the INI file named by
`config_file_get` (an ini error when it cannot be loaded), then look up the
section and the key, failing with a `Configuration` error whose message
names what could not be found and the file. -/
def config_get (env : String → Option String)
    (files : String → Option IniFile) (sectionName key : String) :
    Except Error String :=
  let conf_name := config_file_get env
  match files conf_name with
  | none => .error .IniLoad
  | some conf =>
    match conf.sectionGet sectionName with
    | none =>
      .error (.Configuration ("Cannot find section called " ++ sectionName ++
        " in file " ++ conf_name))
    | some sec =>
      match propsGet sec key with
      | none =>
        .error (.Configuration ("Cannot find key " ++ key ++ " in file " ++
          conf_name))
      | some value => .ok value

/-- `config_get_env` from `common.rs`: a set, non-empty environment variable
wins; an unset or empty one falls through to the file lookup. -/
def config_get_env (env : String → Option String)
    (files : String → Option IniFile) (sectionName key envName : String) :
    Except Error String :=
  match env envName with
  | some ip => if ip ≠ "" then .ok ip else config_get env files sectionName key
  | none => config_get env files sectionName key

/-- Rust `bool::from_str`: exactly the strings `"true"` and `"false"`
parse; anything else is a `ParseBoolError` (carried into the repository's
error type by the `?` conversions in `common.rs`). -/
def bool_from_str (s : String) : Except Error Bool :=
  if s = "true" then .ok true
  else if s = "false" then .ok false
  else .error .ParseBool

/-- Rust `str::parse::<u32>`: an optional leading plus sign, then at least
one decimal digit, with the value bounded by `2^32`. -/
def parse_u32 (s : String) : Option Nat :=
  let cs := match s.data with
    | '+' :: rest => rest
    | cs => cs
  if cs ≠ [] ∧ cs.all Char.isDigit then
    let n := cs.foldl (fun acc c => acc * 10 + (c.toNat - 48)) 0
    if n < 2 ^ 32 then some n else none
  else none

/-- Whether a path string already ends in the separator character. -/
def strEndsWithSlash (s : String) : Bool :=
  s.data.getLast? = some '/'

/-- Rust `Path::join` followed by `display().to_string()`: concatenation
with a path separator when the base does not already end in one. -/
def pathJoin (base rel : String) : String :=
  if base = "" then rel
  else if strEndsWithSlash base then base ++ rel
  else base ++ "/" ++ rel

/-- The `work_dir` binding of `KeylimeConfig::build`: any lookup failure is
replaced by the static default working directory via `or_else`. -/
def resolve_work_dir (env : String → Option String)
    (files : String → Option IniFile) : Except Error String :=
  match config_get_env env files "cloud_agent" "keylime_dir" "KEYLIME_DIR" with
  | .ok s => .ok s
  | .error _ => .ok WORK_DIR

/-- The `revocation_actions` binding of `KeylimeConfig::build`: any lookup
failure is replaced by the static default via `or_else`. -/
def resolve_revocation_actions (env : String → Option String)
    (files : String → Option IniFile) : Except Error String :=
  match config_get env files "cloud_agent" "revocation_actions" with
  | .ok s => .ok s
  | .error _ => .ok REV_ACTIONS

/-- The `revocation_actions_dir` binding of `KeylimeConfig::build`: any
lookup failure is replaced by the static default via `or_else`. -/
def resolve_revocation_actions_dir (env : String → Option String)
    (files : String → Option IniFile) : Except Error String :=
  match config_get env files "cloud_agent" "revocation_actions_dir" with
  | .ok s => .ok s
  | .error _ => .ok REV_ACTIONS_DIR

/-- The `allow_payload_revocation_actions` binding of
`KeylimeConfig::build`: a missing key falls back to the static default, but
a present value is parsed as a boolean and a parse failure propagates
through `?`. -/
def resolve_allow_payload_revocation_actions (env : String → Option String)
    (files : String → Option IniFile) : Except Error Bool :=
  match config_get env files "cloud_agent" "allow_payload_revocation_actions" with
  | .ok s => bool_from_str (strToLower s)
  | .error _ => .ok ALLOW_PAYLOAD_REV_ACTIONS

/-- The `mtls_enabled` binding of `KeylimeConfig::build`: a missing key
yields `true`; a present value is parsed as a boolean with a parse failure
replaced by the static default through `.or(Ok(MTLS_ENABLED))`. -/
def resolve_mtls_enabled (env : String → Option String)
    (files : String → Option IniFile) : Except Error Bool :=
  match config_get env files "cloud_agent" "mtls_cert_enabled" with
  | .ok enabled =>
    match bool_from_str (strToLower enabled) with
    | .ok b => .ok b
    | .error _ => .ok MTLS_ENABLED
  | .error _ => .ok true

/-- The `enable_insecure_payload` binding of `KeylimeConfig::build`: a
missing key yields `false`; a present value is parsed as a boolean with a
parse failure replaced by the static default through
`.or(Ok(ALLOW_INSECURE_PAYLOAD))`. -/
def resolve_enable_insecure_payload (env : String → Option String)
    (files : String → Option IniFile) : Except Error Bool :=
  match config_get env files "cloud_agent" "enable_insecure_payload" with
  | .ok allowed =>
    match bool_from_str (strToLower allowed) with
    | .ok b => .ok b
    | .error _ => .ok ALLOW_INSECURE_PAYLOAD
  | .error _ => .ok false

/-- The `run_revocation` lookup chain of `KeylimeConfig::build`: the current
key name first, and only on failure the deprecated misspelled key name. -/
def listen_notifications_lookup (env : String → Option String)
    (files : String → Option IniFile) : Except Error String :=
  match config_get env files "cloud_agent" "listen_notifications" with
  | .ok v => .ok v
  | .error _ => config_get env files "cloud_agent" "listen_notfications"

/-- The `run_revocation` binding of `KeylimeConfig::build`: the value from
the lookup chain, lowercased and parsed as a boolean, both failures
propagating through `?`. -/
def resolve_run_revocation (env : String → Option String)
    (files : String → Option IniFile) : Except Error Bool :=
  match listen_notifications_lookup env files with
  | .ok v => bool_from_str (strToLower v)
  | .error e => .error e

/-- The `keylime_ca_path` rewrite of `KeylimeConfig::build`: the sentinel
string `"default"` is replaced by `DEFAULT_CA_PATH` joined under the
working directory; anything else passes through verbatim. -/
def resolve_keylime_ca_path (work_dir value : String) : String :=
  if value = "default" then pathJoin work_dir DEFAULT_CA_PATH else value

/-- `cloudagent_contact_ip_get` from `common.rs`: errors are ignored because
the option might not be set. -/
def cloudagent_contact_ip_get (env : String → Option String)
    (files : String → Option IniFile) : Option String :=
  match config_get_env env files "cloud_agent" "agent_contact_ip"
      "KEYLIME_AGENT_CONTACT_IP" with
  | .ok ip => some ip
  | .error _ => none

/-- `cloudagent_contact_port_get` from `common.rs`: a missing setting is
`none`, but a present value that does not parse as a `u32` port is a
`Configuration` error. -/
def cloudagent_contact_port_get (env : String → Option String)
    (files : String → Option IniFile) : Except Error (Option Nat) :=
  match config_get_env env files "cloud_agent" "agent_contact_port"
      "KEYLIME_AGENT_CONTACT_PORT" with
  | .ok port_str =>
    match parse_u32 port_str with
    | some port => .ok (some port)
    | none => .error (.Configuration ("Parse " ++ port_str ++ " to a port number."))
  | .error _ => .ok none

/-- Modelled from the spec: the value of one hexadecimal digit character
(the `uuid` crate parses hex digits case-insensitively). -/
def hexVal (c : Char) : Option Nat :=
  if 48 ≤ c.toNat ∧ c.toNat ≤ 57 then some (c.toNat - 48)
  else if 97 ≤ c.toNat ∧ c.toNat ≤ 102 then some (c.toNat - 87)
  else if 65 ≤ c.toNat ∧ c.toNat ≤ 70 then some (c.toNat - 55)
  else none

/-- Modelled from the spec: the lowercase hexadecimal digit character for a
nibble (the `uuid` crate prints in lowercase). -/
def hexChar (n : Nat) : Char :=
  Char.ofNat (if n < 10 then 48 + n else 87 + n)

/-- Parse a run of hexadecimal digit characters into nibbles. -/
def parseHexList : List Char → Option (List Nat)
  | [] => some []
  | c :: cs =>
    match hexVal c, parseHexList cs with
    | some v, some vs => some (v :: vs)
    | _, _ => none

/-- Parse the hyphenated UUID layout `8-4-4-4-12`. -/
def parseHyphenated (cs : List Char) : Option (List Nat) :=
  match cs.drop 8 with
  | '-' :: r2 =>
    match r2.drop 4 with
    | '-' :: r4 =>
      match r4.drop 4 with
      | '-' :: r6 =>
        match r6.drop 4 with
        | '-' :: g5 =>
          if (cs.take 8).length = 8 ∧ g5.length = 12 then
            parseHexList (cs.take 8 ++ r2.take 4 ++ r4.take 4 ++ r6.take 4 ++ g5)
          else none
        | _ => none
      | _ => none
    | _ => none
  | _ => none

/-- Modelled from the spec: `Uuid::parse_str`, accepting the simple
32-hex-digit form and the hyphenated form, case-insensitively; a UUID value
is its list of 32 nibbles. -/
def uuid_parse_str (s : String) : Option (List Nat) :=
  if s.data.length = 32 then parseHexList s.data else parseHyphenated s.data

/-- Modelled from the spec: `Uuid::to_string`, the canonical lowercase
hyphenated textual form. -/
def uuid_to_string (u : List Nat) : String :=
  String.mk ((u.take 8).map hexChar ++ ['-'] ++
    ((u.drop 8).take 4).map hexChar ++ ['-'] ++
    ((u.drop 12).take 4).map hexChar ++ ['-'] ++
    ((u.drop 16).take 4).map hexChar ++ ['-'] ++
    (u.drop 20).map hexChar)

/-- The raw random nibble material feeding `Uuid::new_v4`, normalized to 32
nibbles. -/
def uuidRand (gen : List Nat) : List Nat :=
  ((gen ++ List.replicate 32 0).take 32).map (fun x => x % 16)

/-- Stamp the version nibble (index 12, set to `4`) and the variant nibble
(index 16, two high bits set to `10`) onto raw random nibbles. -/
def uuidSetBits (r : List Nat) : List Nat :=
  (r.set 12 4).set 16 ((r.set 12 4).getD 16 0 % 4 + 8)

/-- Modelled from the spec: `Uuid::new_v4`, building a version-4 UUID from
the random nibbles supplied by the generator. -/
def uuid_new_v4 (gen : List Nat) : List Nat :=
  uuidSetBits (uuidRand gen)

/-- `get_uuid` from `common.rs`: the literal tags pass through, `"generate"`
produces a fresh v4 UUID, any other string is parsed as a UUID and printed
canonically on success, with a parse failure falling back to a fresh v4
UUID.  The random generator feeding `Uuid::new_v4` is an explicit
argument. -/
def get_uuid (gen : List Nat) (agent_uuid_config : String) : String :=
  if agent_uuid_config = "openstack" then "openstack"
  else if agent_uuid_config = "hash_ek" then "hash_ek"
  else if agent_uuid_config = "generate" then uuid_to_string (uuid_new_v4 gen)
  else
    match uuid_parse_str agent_uuid_config with
    | some u => uuid_to_string u
    | none => uuid_to_string (uuid_new_v4 gen)

/-- `KeylimeConfig` from `common.rs`: the immutable configuration
snapshot. -/
structure KeylimeConfig where
  agent_ip : String
  agent_port : String
  registrar_ip : String
  registrar_port : String
  agent_uuid : String
  agent_contact_ip : Option String
  agent_contact_port : Option Nat
  hash_alg : HashAlgorithm
  enc_alg : EncryptionAlgorithm
  sign_alg : SignAlgorithm
  tpm_data : Option TpmData
  tpm_data_path : String
  run_revocation : Bool
  revocation_cert : String
  revocation_ip : String
  revocation_port : String
  secure_size : String
  payload_script : String
  dec_payload_filename : String
  key_filename : String
  extract_payload_zip : Bool
  keylime_ca_path : String
  revocation_actions : String
  revocation_actions_dir : String
  allow_payload_revocation_actions : Bool
  work_dir : String
  mtls_enabled : Bool
  enable_insecure_payload : Bool
  run_as : Option String
  deriving DecidableEq, Repr

/-- `KeylimeConfig::build` from `common.rs`, with the process environment,
the INI file store, the filesystem holding the persisted TPM record, the
random generator feeding `Uuid::new_v4` and the effective user id as
explicit arguments.  The sequence and the error behavior of each binding
follow the source line by line (the per-setting bindings with `or_else`
fallbacks are the named `resolve_*` functions above). -/
def KeylimeConfig.build (env : String → Option String)
    (files : String → Option IniFile) (fs : String → Option Json)
    (gen : List Nat) (euid : Nat) : Except Error KeylimeConfig := do
  let agent_ip ← config_get_env env files "cloud_agent" "cloudagent_ip" "CLOUDAGENT_IP"
  let agent_port ← config_get_env env files "cloud_agent" "cloudagent_port" "CLOUDAGENT_PORT"
  let registrar_ip ← config_get_env env files "cloud_agent" "registrar_ip" "REGISTRAR_IP"
  let registrar_port ← config_get_env env files "cloud_agent" "registrar_port" "REGISTRAR_PORT"
  let agent_uuid_config ← config_get env files "cloud_agent" "agent_uuid"
  let agent_uuid := get_uuid gen agent_uuid_config
  let agent_contact_ip := cloudagent_contact_ip_get env files
  let agent_contact_port ← cloudagent_contact_port_get env files
  let hash_alg_str ← config_get env files "cloud_agent" "tpm_hash_alg"
  let hash_alg ← HashAlgorithm.try_from hash_alg_str
  let enc_alg_str ← config_get env files "cloud_agent" "tpm_encryption_alg"
  let enc_alg ← EncryptionAlgorithm.try_from enc_alg_str
  let sign_alg_str ← config_get env files "cloud_agent" "tpm_signing_alg"
  let sign_alg ← SignAlgorithm.try_from sign_alg_str
  let run_revocation ← resolve_run_revocation env files
  let revocation_cert ← config_get env files "cloud_agent" "revocation_cert"
  let revocation_ip ← config_get env files "general" "receive_revocation_ip"
  let revocation_port ← config_get env files "general" "receive_revocation_port"
  let secure_size ← config_get env files "cloud_agent" "secure_size"
  let payload_script ← config_get env files "cloud_agent" "payload_script"
  let dec_payload_filename ← config_get env files "cloud_agent" "dec_payload_file"
  let key_filename ← config_get env files "cloud_agent" "enc_keyname"
  let extract_str ← config_get env files "cloud_agent" "extract_payload_zip"
  let extract_payload_zip ← bool_from_str (strToLower extract_str)
  let work_dir ← resolve_work_dir env files
  let tpm_data_path := pathJoin work_dir TPM_DATA
  let tpm_data := if (fs tpm_data_path).isSome then
      match TpmData.load tpm_data_path fs with
      | .ok data => some data
      | .error _ => none
    else none
  let keylime_ca_raw ← config_get env files "cloud_agent" "keylime_ca"
  let keylime_ca_path := resolve_keylime_ca_path work_dir keylime_ca_raw
  let revocation_actions ← resolve_revocation_actions env files
  let revocation_actions_dir ← resolve_revocation_actions_dir env files
  let allow_payload_revocation_actions ←
    resolve_allow_payload_revocation_actions env files
  let run_as := if euid = 0 then
      match config_get env files "cloud_agent" "run_as" with
      | .ok user_group => some user_group
      | .error _ => none
    else none
  let mtls_enabled ← resolve_mtls_enabled env files
  let enable_insecure_payload ← resolve_enable_insecure_payload env files
  pure {
    agent_ip := agent_ip
    agent_port := agent_port
    registrar_ip := registrar_ip
    registrar_port := registrar_port
    agent_uuid := agent_uuid
    agent_contact_ip := agent_contact_ip
    agent_contact_port := agent_contact_port
    hash_alg := hash_alg
    enc_alg := enc_alg
    sign_alg := sign_alg
    tpm_data := tpm_data
    tpm_data_path := tpm_data_path
    run_revocation := run_revocation
    revocation_cert := revocation_cert
    revocation_ip := revocation_ip
    revocation_port := revocation_port
    secure_size := secure_size
    payload_script := payload_script
    dec_payload_filename := dec_payload_filename
    key_filename := key_filename
    extract_payload_zip := extract_payload_zip
    keylime_ca_path := keylime_ca_path
    revocation_actions := revocation_actions
    revocation_actions_dir := revocation_actions_dir
    allow_payload_revocation_actions := allow_payload_revocation_actions
    work_dir := work_dir
    mtls_enabled := mtls_enabled
    enable_insecure_payload := enable_insecure_payload
    run_as := run_as
  }

/-! ## Helper lemmas -/

lemma zipWith_xor_getElem (a : List Nat) : ∀ (b : List Nat) (i : Nat),
    i < (List.zipWith Nat.xor a b).length →
    ∃ x y, a[i]? = some x ∧ b[i]? = some y ∧
      (List.zipWith Nat.xor a b)[i]? = some (Nat.xor x y) := by
  induction a with
  | nil => intro b i h; simp at h
  | cons x as ih =>
    intro b i h
    cases b with
    | nil => simp at h
    | cons y bs =>
      cases i with
      | zero => exact ⟨x, y, by simp, by simp, by simp⟩
      | succ i =>
        obtain ⟨p, q, h1, h2, h3⟩ := ih bs i (by simpa using h)
        exact ⟨p, q, by simpa using h1, by simpa using h2, by simpa using h3⟩

lemma zipWith_xor_comm : ∀ (a b : List Nat),
    List.zipWith Nat.xor a b = List.zipWith Nat.xor b a
  | [], b => by cases b <;> rfl
  | _ :: _, [] => rfl
  | x :: as, y :: bs => by
    have hx : Nat.xor x y = Nat.xor y x := Nat.xor_comm x y
    simp only [List.zipWith_cons_cons, zipWith_xor_comm as bs, hx]

lemma zipWith_xor_cancel : ∀ (a b : List Nat), a.length = b.length →
    List.zipWith Nat.xor (List.zipWith Nat.xor a b) b = a
  | [], [], _ => rfl
  | x :: as, y :: bs, h => by
    have hx : Nat.xor (Nat.xor x y) y = x := Nat.xor_cancel_right y x
    simp only [List.zipWith_cons_cons,
      zipWith_xor_cancel as bs (by simpa using h), hx]

/-! ## C2, C3, C10: the SymmKey primitive -/

/-- C2: `SymmKey::xor` fails with the key-material error exactly when the
two operands have different byte lengths; on equal lengths it succeeds with
a fresh key of the same length whose byte at every position is the
exclusive-or of the operands' bytes at that position (the embedding is a
pure function, so neither operand is mutated). -/
theorem symmkey_xor_spec (a b : SymmKey) :
    (a.bytes.length ≠ b.bytes.length →
      SymmKey.xor a b = .error (.Other "cannot xor differing length slices"))
  ∧ (a.bytes.length = b.bytes.length →
      ∃ c, SymmKey.xor a b = .ok c
        ∧ c.bytes.length = a.bytes.length
        ∧ c.bytes.length = b.bytes.length
        ∧ ∀ i, i < c.bytes.length →
            ∃ x y, a.bytes[i]? = some x ∧ b.bytes[i]? = some y ∧
              c.bytes[i]? = some (Nat.xor x y)) := by
  constructor
  · intro h
    simp [SymmKey.xor, h]
  · intro h
    refine ⟨⟨List.zipWith Nat.xor a.bytes b.bytes⟩, ?_, ?_, ?_, ?_⟩
    · simp [SymmKey.xor, h]
    · simp [h]
    · simp [h]
    · intro i hi
      exact zipWith_xor_getElem a.bytes b.bytes i hi

/-- Witness for C2 at concrete keys: a 16/32-byte length mismatch produces
the error, and two equal-length keys produce the position-wise
exclusive-or. -/
theorem symmkey_xor_spec_witness :
    SymmKey.xor ⟨List.replicate 16 0⟩ ⟨List.replicate 32 0⟩ =
      .error (.Other "cannot xor differing length slices")
  ∧ SymmKey.xor ⟨[1, 2]⟩ ⟨[3, 4]⟩ = .ok ⟨[2, 6]⟩ := by
  constructor
  · exact (symmkey_xor_spec ⟨List.replicate 16 0⟩ ⟨List.replicate 32 0⟩).1
      (by decide)
  · obtain ⟨c, hc, -, -, hbyte⟩ :=
      (symmkey_xor_spec ⟨[1, 2]⟩ ⟨[3, 4]⟩).2 (by decide)
    have : SymmKey.xor ⟨[1, 2]⟩ ⟨[3, 4]⟩ = .ok ⟨[2, 6]⟩ := by decide
    exact this

/-- C3: constructing a `SymmKey` from raw bytes succeeds exactly when the
length is 16 or 32, and on failure the error string reports the observed
length. -/
theorem symmkey_try_from_spec (v : List Nat) :
    ((∃ k, SymmKey.try_from v = .ok k) ↔
      (v.length = 16 ∨ v.length = 32))
  ∧ ((v.length = 16 ∨ v.length = 32) → SymmKey.try_from v = .ok ⟨v⟩)
  ∧ (¬(v.length = 16 ∨ v.length = 32) →
      SymmKey.try_from v = .error ("key length " ++ toString v.length ++
        " does not correspond to valid GCM cipher")) := by
  refine ⟨⟨?_, ?_⟩, ?_, ?_⟩
  · rintro ⟨k, hk⟩
    by_contra h
    simp [SymmKey.try_from, AES_128_KEY_LEN, AES_256_KEY_LEN, h] at hk
  · intro h
    exact ⟨⟨v⟩, by simp [SymmKey.try_from, AES_128_KEY_LEN, AES_256_KEY_LEN, h]⟩
  · intro h
    simp [SymmKey.try_from, AES_128_KEY_LEN, AES_256_KEY_LEN, h]
  · intro h
    simp [SymmKey.try_from, AES_128_KEY_LEN, AES_256_KEY_LEN, h]

/-- Witness for C3 at concrete lengths: 16 bytes are accepted, 15 bytes are
rejected with the length 15 reported in the error. -/
theorem symmkey_try_from_spec_witness :
    SymmKey.try_from (List.replicate 16 7) = .ok ⟨List.replicate 16 7⟩
  ∧ SymmKey.try_from (List.replicate 15 7) =
      .error "key length 15 does not correspond to valid GCM cipher" := by
  constructor
  · exact (symmkey_try_from_spec (List.replicate 16 7)).2.1 (by decide)
  · have h := (symmkey_try_from_spec (List.replicate 15 7)).2.2 (by decide)
    simpa using h

/-- C10: on equal-length keys `SymmKey::xor` is self-inverse
(`xor (xor a b) b` recovers `a`), and it is commutative on all inputs. -/
theorem symmkey_xor_inverse_comm (a b : SymmKey) :
    (a.bytes.length = b.bytes.length →
      ∃ c, SymmKey.xor a b = .ok c ∧ SymmKey.xor c b = .ok a)
  ∧ SymmKey.xor a b = SymmKey.xor b a := by
  rcases a with ⟨as⟩
  rcases b with ⟨bs⟩
  constructor
  · intro h
    simp only at h
    refine ⟨⟨List.zipWith Nat.xor as bs⟩, by simp [SymmKey.xor, h], ?_⟩
    have hzb : (List.zipWith Nat.xor as bs).length = bs.length := by
      simp [h]
    simp [SymmKey.xor, hzb, zipWith_xor_cancel as bs h]
  · by_cases h : as.length = bs.length
    · simp [SymmKey.xor, h, zipWith_xor_comm]
    · have h' : bs.length ≠ as.length := fun hh => h hh.symm
      simp [SymmKey.xor, h, h']

/-- Witness for C10 at concrete equal-length keys. -/
theorem symmkey_xor_inverse_comm_witness :
    (SymmKey.xor ⟨[5, 9]⟩ ⟨[3, 4]⟩ = .ok ⟨[6, 13]⟩)
  ∧ (SymmKey.xor ⟨[6, 13]⟩ ⟨[3, 4]⟩ = .ok ⟨[5, 9]⟩) := by
  obtain ⟨c, hc, hinv⟩ := (symmkey_xor_inverse_comm ⟨[5, 9]⟩ ⟨[3, 4]⟩).1 (by decide)
  have h1 : SymmKey.xor ⟨[5, 9]⟩ ⟨[3, 4]⟩ = .ok ⟨[6, 13]⟩ := by decide
  have h2 : c = ⟨[6, 13]⟩ := by
    have := hc.symm.trans h1
    simpa using this
  exact ⟨h1, h2 ▸ hinv⟩

/-! ## C4: environment-variable precedence in `config_get_env` -/

/-- C4: when the environment variable is set to a non-empty string the
resolved value is exactly that string, whatever the files hold; when the
variable is unset, or set to the empty string, resolution is exactly the
configuration-file lookup. -/
theorem config_get_env_precedence (env : String → Option String)
    (files : String → Option IniFile) (sectionName key envName v : String) :
    (env envName = some v → v ≠ "" →
      config_get_env env files sectionName key envName = .ok v)
  ∧ (env envName = none →
      config_get_env env files sectionName key envName =
        config_get env files sectionName key)
  ∧ (env envName = some "" →
      config_get_env env files sectionName key envName =
        config_get env files sectionName key) := by
  refine ⟨?_, ?_, ?_⟩
  · intro h hne
    simp [config_get_env, h, hne]
  · intro h
    simp [config_get_env, h]
  · intro h
    simp [config_get_env, h]

/-- Witness for C4 at a concrete environment and file store: a set non-empty
variable overrides the file value, an unset and an empty variable both fall
through to the file value. -/
theorem config_get_env_precedence_witness :
    config_get_env (fun n => if n = "CLOUDAGENT_IP" then some "10.0.0.7" else none)
      (fun p => if p = "/etc/keylime.conf" then
        some ⟨[("cloud_agent", [("cloudagent_ip", "1.2.3.4")])]⟩ else none)
      "cloud_agent" "cloudagent_ip" "CLOUDAGENT_IP" = .ok "10.0.0.7"
  ∧ config_get_env (fun _ => none)
      (fun p => if p = "/etc/keylime.conf" then
        some ⟨[("cloud_agent", [("cloudagent_ip", "1.2.3.4")])]⟩ else none)
      "cloud_agent" "cloudagent_ip" "CLOUDAGENT_IP" =
      config_get (fun _ => none)
        (fun p => if p = "/etc/keylime.conf" then
          some ⟨[("cloud_agent", [("cloudagent_ip", "1.2.3.4")])]⟩ else none)
        "cloud_agent" "cloudagent_ip"
  ∧ config_get_env (fun n => if n = "CLOUDAGENT_IP" then some "" else none)
      (fun p => if p = "/etc/keylime.conf" then
        some ⟨[("cloud_agent", [("cloudagent_ip", "1.2.3.4")])]⟩ else none)
      "cloud_agent" "cloudagent_ip" "CLOUDAGENT_IP" =
      config_get (fun n => if n = "CLOUDAGENT_IP" then some "" else none)
        (fun p => if p = "/etc/keylime.conf" then
          some ⟨[("cloud_agent", [("cloudagent_ip", "1.2.3.4")])]⟩ else none)
        "cloud_agent" "cloudagent_ip" := by
  refine ⟨?_, ?_, ?_⟩
  · exact (config_get_env_precedence _ _ "cloud_agent" "cloudagent_ip"
      "CLOUDAGENT_IP" "10.0.0.7").1 (by decide) (by decide)
  · exact (config_get_env_precedence _ _ "cloud_agent" "cloudagent_ip"
      "CLOUDAGENT_IP" "").2.1 (by decide)
  · exact (config_get_env_precedence _ _ "cloud_agent" "cloudagent_ip"
      "CLOUDAGENT_IP" "").2.2 (by decide)

/-! ## C7: the deprecated misspelled `listen_notfications` fallback -/

/-- C7: the `listen_notifications` setting is looked up under its current
key name first; only when that lookup fails is the deprecated misspelled
key name tried, so the setting resolves when only the misspelled key is in
the file; the lookup chain fails exactly when both lookups fail, and a
chain failure propagates out of the `run_revocation` resolution. -/
theorem listen_notifications_fallback (env : String → Option String)
    (files : String → Option IniFile) :
    (∀ v, config_get env files "cloud_agent" "listen_notifications" = .ok v →
      listen_notifications_lookup env files = .ok v)
  ∧ (∀ e v, config_get env files "cloud_agent" "listen_notifications" = .error e →
      config_get env files "cloud_agent" "listen_notfications" = .ok v →
      listen_notifications_lookup env files = .ok v)
  ∧ (∀ e v b, config_get env files "cloud_agent" "listen_notifications" = .error e →
      config_get env files "cloud_agent" "listen_notfications" = .ok v →
      bool_from_str (strToLower v) = .ok b →
      resolve_run_revocation env files = .ok b)
  ∧ (∀ e₁ e₂, config_get env files "cloud_agent" "listen_notifications" = .error e₁ →
      config_get env files "cloud_agent" "listen_notfications" = .error e₂ →
      listen_notifications_lookup env files = .error e₂ ∧
      resolve_run_revocation env files = .error e₂) := by
  refine ⟨?_, ?_, ?_, ?_⟩
  · intro v h
    simp [listen_notifications_lookup, h]
  · intro e v h1 h2
    simp [listen_notifications_lookup, h1, h2]
  · intro e v b h1 h2 h3
    simp [resolve_run_revocation, listen_notifications_lookup, h1, h2, h3]
  · intro e₁ e₂ h1 h2
    constructor
    · simp [listen_notifications_lookup, h1, h2]
    · simp [resolve_run_revocation, listen_notifications_lookup, h1, h2]

/-- File store holding only the deprecated misspelled revocation key. -/
def filesMisspelled : String → Option IniFile := fun p =>
  if p = "/etc/keylime.conf" then
    some ⟨[("cloud_agent", [("listen_notfications", "True")])]⟩
  else none

/-- The everywhere-unset process environment. -/
def envUnset : String → Option String := fun _ => none

/-- Witness for C7: with only the misspelled key in the file, the lookup
chain and the full `run_revocation` resolution both succeed. -/
theorem listen_notifications_fallback_witness :
    listen_notifications_lookup envUnset filesMisspelled = .ok "True"
  ∧ resolve_run_revocation envUnset filesMisspelled = .ok true := by
  constructor
  · exact (listen_notifications_fallback envUnset filesMisspelled).2.1
      (.Configuration "Cannot find key listen_notifications in file /etc/keylime.conf")
      "True" (by decide) (by decide)
  · exact (listen_notifications_fallback envUnset filesMisspelled).2.2.1
      (.Configuration "Cannot find key listen_notifications in file /etc/keylime.conf")
      "True" true (by decide) (by decide) (by decide)

/-! ## C8: the CA-path sentinel -/

/-- C8: a configured CA path equal to the sentinel `"default"` is rewritten
to the fixed relative path `cv_ca/cacert.crt` joined under the working
directory (for an ordinary working directory, `<work_dir>/cv_ca/cacert.crt`);
any other configured string is used verbatim. -/
theorem keylime_ca_sentinel (work_dir value : String) :
    (value = "default" →
      resolve_keylime_ca_path work_dir value = pathJoin work_dir DEFAULT_CA_PATH)
  ∧ (value = "default" → work_dir ≠ "" → strEndsWithSlash work_dir = false →
      resolve_keylime_ca_path work_dir value = work_dir ++ "/" ++ "cv_ca/cacert.crt")
  ∧ (value ≠ "default" → resolve_keylime_ca_path work_dir value = value) := by
  refine ⟨?_, ?_, ?_⟩
  · intro h
    simp [resolve_keylime_ca_path, h]
  · intro h hne hsl
    simp [resolve_keylime_ca_path, h, pathJoin, hne, hsl, DEFAULT_CA_PATH]
  · intro h
    simp [resolve_keylime_ca_path, h]

/-- Witness for C8 at the default working directory: the sentinel resolves
to `/var/lib/keylime/cv_ca/cacert.crt` and a non-sentinel path passes
through. -/
theorem keylime_ca_sentinel_witness :
    resolve_keylime_ca_path "/var/lib/keylime" "default" =
      "/var/lib/keylime" ++ "/" ++ "cv_ca/cacert.crt"
  ∧ resolve_keylime_ca_path "/var/lib/keylime" "/tmp/ca.crt" = "/tmp/ca.crt" := by
  constructor
  · exact (keylime_ca_sentinel "/var/lib/keylime" "default").2.1
      (by decide) (by decide) (by decide)
  · exact (keylime_ca_sentinel "/var/lib/keylime" "/tmp/ca.crt").2.2
      (by decide)

/-! ## C9: identity-record store/load round trip -/

lemma hashAlg_tag_roundtrip (h : HashAlgorithm) :
    hashAlgOfTag (hashAlgTag h) = some h := by
  cases h <;> rfl

lemma signAlg_tag_roundtrip (s : SignAlgorithm) :
    signAlgOfTag (signAlgTag s) = some s := by
  cases s <;> rfl

lemma jsonBytes_map_num : ∀ (l : List Nat),
    jsonBytes (l.map Json.num) = some l
  | [] => rfl
  | x :: xs => by
    simp only [List.map_cons, jsonBytes, jsonBytes_map_num xs]

lemma tpmdata_deserialize_serialize (d : TpmData) :
    TpmData.deserialize (TpmData.serialize d) = some d := by
  rcases d with ⟨h, s, ctx⟩
  simp [TpmData.serialize, TpmData.deserialize, hashAlg_tag_roundtrip,
    signAlg_tag_roundtrip, jsonBytes_map_num]

/-- C9: storing an `IdentityRecord` (`TpmData`) at a path and loading from
that same path succeeds and returns the record unchanged — hash algorithm,
sign algorithm and opaque context blob all identical. -/
theorem tpmdata_store_load_roundtrip (d : TpmData) (path : String)
    (fs : String → Option Json) :
    TpmData.load path (TpmData.store d path fs) = .ok d := by
  simp [TpmData.load, TpmData.store, tpmdata_deserialize_serialize]

/-! ## C6: the error carried by a failed file lookup -/

/-- Whether `needle` occurs at the head of `hay`. -/
def leadsWith : List Char → List Char → Bool
  | [], _ => true
  | _ :: _, [] => false
  | a :: as, b :: bs => a == b && leadsWith as bs

/-- Whether `needle` occurs contiguously anywhere inside `hay`. -/
def hasSub (needle : List Char) : List Char → Bool
  | [] => needle.isEmpty
  | c :: t => leadsWith needle (c :: t) || hasSub needle t

/-- Whether the string `needle` occurs inside the string `hay`. -/
def strContains (hay needle : String) : Bool :=
  hasSub needle.data hay.data

lemma leadsWith_append (l r : List Char) : leadsWith l (l ++ r) = true := by
  induction l with
  | nil => rfl
  | cons a as ih => simp [leadsWith, ih]

lemma hasSub_nil_needle : ∀ (l : List Char), hasSub [] l = true
  | [] => rfl
  | _ :: t => by simp [hasSub, leadsWith]

lemma hasSub_self_append (mid post : List Char) :
    hasSub mid (mid ++ post) = true := by
  cases mid with
  | nil => exact hasSub_nil_needle post
  | cons m ms =>
    show hasSub (m :: ms) ((m :: ms) ++ post) = true
    simp only [List.cons_append, hasSub, Bool.or_eq_true]
    exact Or.inl (leadsWith_append (m :: ms) post)

lemma hasSub_parts : ∀ (pre mid post : List Char),
    hasSub mid (pre ++ mid ++ post) = true
  | [], mid, post => by simpa using hasSub_self_append mid post
  | c :: pre, mid, post => by
    cases mid with
    | nil => exact hasSub_nil_needle _
    | cons m ms =>
      simp only [List.cons_append, List.append_assoc, hasSub, Bool.or_eq_true]
      refine Or.inr ?_
      have h := hasSub_parts pre (m :: ms) post
      simpa [List.append_assoc] using h

lemma strContains_parts (pre mid post : String) :
    strContains (pre ++ mid ++ post) mid = true := by
  simp only [strContains, String.data_append]
  exact hasSub_parts pre.data mid.data post.data

/-- File store whose `cloud_agent` section lacks the `agent_uuid` key. -/
def filesNoUuid : String → Option IniFile := fun p =>
  if p = "/etc/keylime.conf" then
    some ⟨[("cloud_agent", [("cloudagent_ip", "127.0.0.1")])]⟩
  else none

/-- Counterexample for C6: when the key is absent within a present section,
the Configuration error names the key and the file but does not carry the
missing section name, so the error does not carry all three of section, key
and file as the claim states. -/
theorem config_get_missing_error_counterexample :
    config_get envUnset filesNoUuid "cloud_agent" "agent_uuid" =
      .error (.Configuration "Cannot find key agent_uuid in file /etc/keylime.conf")
  ∧ strContains "Cannot find key agent_uuid in file /etc/keylime.conf"
      "cloud_agent" = false := by
  constructor
  · decide
  · decide

/-- C6 (amended): a file lookup that fails because the section is absent
produces a Configuration error naming the missing section and the
configuration file; one that fails because the key is absent within the
section produces a Configuration error naming the missing key and the
configuration file.  (The section-absent message does not mention the key,
and the key-absent message does not mention the section.) -/
theorem config_get_missing_error (env : String → Option String)
    (files : String → Option IniFile) (sectionName key : String)
    (conf : IniFile) :
    (files (config_file_get env) = some conf →
      conf.sectionGet sectionName = none →
      config_get env files sectionName key =
        .error (.Configuration ("Cannot find section called " ++ sectionName ++
          " in file " ++ config_file_get env))
      ∧ strContains ("Cannot find section called " ++ sectionName ++
          " in file " ++ config_file_get env) sectionName = true
      ∧ strContains ("Cannot find section called " ++ sectionName ++
          " in file " ++ config_file_get env) (config_file_get env) = true)
  ∧ (∀ sec, files (config_file_get env) = some conf →
      conf.sectionGet sectionName = some sec →
      propsGet sec key = none →
      config_get env files sectionName key =
        .error (.Configuration ("Cannot find key " ++ key ++
          " in file " ++ config_file_get env))
      ∧ strContains ("Cannot find key " ++ key ++
          " in file " ++ config_file_get env) key = true
      ∧ strContains ("Cannot find key " ++ key ++
          " in file " ++ config_file_get env) (config_file_get env) = true) := by
  constructor
  · intro hf hs
    refine ⟨?_, ?_, ?_⟩
    · simp [config_get, hf, hs]
    · have h := strContains_parts "Cannot find section called " sectionName
        (" in file " ++ config_file_get env)
      simpa [String.append_assoc] using h
    · have h := strContains_parts
        ("Cannot find section called " ++ sectionName ++ " in file ")
        (config_file_get env) ""
      simpa [String.append_assoc] using h
  · intro sec hf hs hk
    refine ⟨?_, ?_, ?_⟩
    · simp [config_get, hf, hs, hk]
    · have h := strContains_parts "Cannot find key " key
        (" in file " ++ config_file_get env)
      simpa [String.append_assoc] using h
    · have h := strContains_parts
        ("Cannot find key " ++ key ++ " in file ")
        (config_file_get env) ""
      simpa [String.append_assoc] using h

/-- File store with no `general` section at all. -/
def filesNoGeneral : String → Option IniFile := fun p =>
  if p = "/etc/keylime.conf" then
    some ⟨[("cloud_agent", [("cloudagent_ip", "127.0.0.1")])]⟩
  else none

/-- Witness for the amended C6 at concrete stores: an absent section and an
absent key each produce the documented Configuration error. -/
theorem config_get_missing_error_witness :
    config_get envUnset filesNoGeneral "general" "receive_revocation_ip" =
      .error (.Configuration
        "Cannot find section called general in file /etc/keylime.conf")
  ∧ config_get envUnset filesNoUuid "cloud_agent" "agent_uuid" =
      .error (.Configuration
        "Cannot find key agent_uuid in file /etc/keylime.conf") := by
  constructor
  · have h := (config_get_missing_error envUnset filesNoGeneral "general"
      "receive_revocation_ip" ⟨[("cloud_agent", [("cloudagent_ip", "127.0.0.1")])]⟩).1
      (by decide) (by decide)
    exact h.1
  · have h := (config_get_missing_error envUnset filesNoUuid "cloud_agent"
      "agent_uuid" ⟨[("cloud_agent", [("cloudagent_ip", "127.0.0.1")])]⟩).2
      [("cloudagent_ip", "127.0.0.1")] (by decide) (by decide) (by decide)
    exact h.1

/-! ## C1: defaults versus malformed values in the configuration build -/

/-- A complete, otherwise-valid configuration file in which the two boolean
settings `mtls_cert_enabled` and `enable_insecure_payload` hold text that
does not parse as a boolean. -/
def filesMalformedBool : String → Option IniFile := fun p =>
  if p = "/etc/keylime.conf" then
    some ⟨[("cloud_agent",
      [("cloudagent_ip", "127.0.0.1"),
       ("cloudagent_port", "9002"),
       ("registrar_ip", "127.0.0.1"),
       ("registrar_port", "8890"),
       ("agent_uuid", "d432fbb3-d2f1-4a97-9ef7-75bd81c00000"),
       ("tpm_hash_alg", "sha256"),
       ("tpm_encryption_alg", "rsa"),
       ("tpm_signing_alg", "rsassa"),
       ("listen_notifications", "True"),
       ("revocation_cert", "default"),
       ("secure_size", "1m"),
       ("payload_script", "autorun.sh"),
       ("dec_payload_file", "decrypted_payload"),
       ("enc_keyname", "derived_tci_key"),
       ("extract_payload_zip", "True"),
       ("keylime_ca", "default"),
       ("mtls_cert_enabled", "yes"),
       ("enable_insecure_payload", "nope")]),
      ("general",
       [("receive_revocation_ip", "127.0.0.1"),
        ("receive_revocation_port", "8992")])]⟩
  else none

/-- The empty filesystem (no persisted TPM record). -/
def fsEmpty : String → Option Json := fun _ => none

/-- File store holding a malformed boolean for the
`allow_payload_revocation_actions` key. -/
def filesBadAllow : String → Option IniFile := fun p =>
  if p = "/etc/keylime.conf" then
    some ⟨[("cloud_agent", [("allow_payload_revocation_actions", "maybe")])]⟩
  else none

/-- Counterexample for C1: with `mtls_cert_enabled = yes` and
`enable_insecure_payload = nope` present in the file — both values that
fail to parse as booleans — the configuration build does not fail; it
succeeds and silently substitutes the documented defaults (`true` for mTLS
enablement, `false` for insecure-payload tolerance). -/
theorem build_malformed_bool_counterexample :
    (KeylimeConfig.build envUnset filesMalformedBool fsEmpty [] 1000).map
      (fun c => (c.mtls_enabled, c.enable_insecure_payload)) =
      .ok (true, false) := by
  decide

/-- C1 (amended): when the key is absent the documented default is
substituted silently for all five settings (working directory, revocation
actions, revocation actions directory, payload-revocation-action
permission, mTLS enablement, insecure-payload tolerance); a present value
that fails to parse as a boolean aborts the build only for the
payload-revocation-action permission — for mTLS enablement and
insecure-payload tolerance a malformed boolean silently substitutes the
default (`true` and `false` respectively) instead of failing. -/
theorem build_defaults_amended (env : String → Option String)
    (files : String → Option IniFile) :
    (∀ e, config_get_env env files "cloud_agent" "keylime_dir" "KEYLIME_DIR" =
        .error e → resolve_work_dir env files = .ok WORK_DIR)
  ∧ (∀ e, config_get env files "cloud_agent" "revocation_actions" = .error e →
      resolve_revocation_actions env files = .ok REV_ACTIONS)
  ∧ (∀ e, config_get env files "cloud_agent" "revocation_actions_dir" = .error e →
      resolve_revocation_actions_dir env files = .ok REV_ACTIONS_DIR)
  ∧ (∀ e, config_get env files "cloud_agent" "allow_payload_revocation_actions" =
        .error e →
      resolve_allow_payload_revocation_actions env files =
        .ok ALLOW_PAYLOAD_REV_ACTIONS)
  ∧ (∀ v, config_get env files "cloud_agent" "allow_payload_revocation_actions" =
        .ok v →
      resolve_allow_payload_revocation_actions env files =
        bool_from_str (strToLower v))
  ∧ (∀ e, config_get env files "cloud_agent" "mtls_cert_enabled" = .error e →
      resolve_mtls_enabled env files = .ok true)
  ∧ (∀ v e, config_get env files "cloud_agent" "mtls_cert_enabled" = .ok v →
      bool_from_str (strToLower v) = .error e →
      resolve_mtls_enabled env files = .ok MTLS_ENABLED)
  ∧ (∀ e, config_get env files "cloud_agent" "enable_insecure_payload" = .error e →
      resolve_enable_insecure_payload env files = .ok false)
  ∧ (∀ v e, config_get env files "cloud_agent" "enable_insecure_payload" = .ok v →
      bool_from_str (strToLower v) = .error e →
      resolve_enable_insecure_payload env files = .ok ALLOW_INSECURE_PAYLOAD) := by
  refine ⟨?_, ?_, ?_, ?_, ?_, ?_, ?_, ?_, ?_⟩
  · intro e h; simp [resolve_work_dir, h]
  · intro e h; simp [resolve_revocation_actions, h]
  · intro e h; simp [resolve_revocation_actions_dir, h]
  · intro e h; simp [resolve_allow_payload_revocation_actions, h]
  · intro v h; simp [resolve_allow_payload_revocation_actions, h]
  · intro e h; simp [resolve_mtls_enabled, h]
  · intro v e h hb; simp [resolve_mtls_enabled, h, hb]
  · intro e h; simp [resolve_enable_insecure_payload, h]
  · intro v e h hb; simp [resolve_enable_insecure_payload, h, hb]

/-- Witness for the amended C1 at concrete stores: with
`filesMalformedBool` the malformed `mtls_cert_enabled` and
`enable_insecure_payload` values substitute their defaults, the absent
`keylime_dir`, `revocation_actions`, `revocation_actions_dir` and
`allow_payload_revocation_actions` keys substitute theirs, and with a
malformed `allow_payload_revocation_actions` value the resolution fails. -/
theorem build_defaults_amended_witness :
    resolve_work_dir envUnset filesMalformedBool = .ok WORK_DIR
  ∧ resolve_revocation_actions envUnset filesMalformedBool = .ok REV_ACTIONS
  ∧ resolve_revocation_actions_dir envUnset filesMalformedBool =
      .ok REV_ACTIONS_DIR
  ∧ resolve_allow_payload_revocation_actions envUnset filesMalformedBool =
      .ok ALLOW_PAYLOAD_REV_ACTIONS
  ∧ resolve_mtls_enabled envUnset filesMalformedBool = .ok MTLS_ENABLED
  ∧ resolve_enable_insecure_payload envUnset filesMalformedBool =
      .ok ALLOW_INSECURE_PAYLOAD
  ∧ resolve_allow_payload_revocation_actions envUnset filesBadAllow =
      .error .ParseBool := by
  refine ⟨?_, ?_, ?_, ?_, ?_, ?_, ?_⟩
  · exact (build_defaults_amended envUnset filesMalformedBool).1
      (.Configuration "Cannot find key keylime_dir in file /etc/keylime.conf")
      (by decide)
  · exact (build_defaults_amended envUnset filesMalformedBool).2.1
      (.Configuration "Cannot find key revocation_actions in file /etc/keylime.conf")
      (by decide)
  · exact (build_defaults_amended envUnset filesMalformedBool).2.2.1
      (.Configuration
        "Cannot find key revocation_actions_dir in file /etc/keylime.conf")
      (by decide)
  · exact (build_defaults_amended envUnset filesMalformedBool).2.2.2.1
      (.Configuration
        "Cannot find key allow_payload_revocation_actions in file /etc/keylime.conf")
      (by decide)
  · exact (build_defaults_amended envUnset filesMalformedBool).2.2.2.2.2.2.1
      "yes" .ParseBool (by decide) (by decide)
  · exact (build_defaults_amended envUnset filesMalformedBool).2.2.2.2.2.2.2.2
      "nope" .ParseBool (by decide) (by decide)
  · have h := (build_defaults_amended envUnset filesBadAllow).2.2.2.2.1
      "maybe" (by decide)
    have hb : bool_from_str (strToLower "maybe") = .error .ParseBool := by decide
    exact h.trans hb

/-! ## C5: UUID resolution -/

lemma hexVal_lt {c : Char} {v : Nat} (h : hexVal c = some v) : v < 16 := by
  unfold hexVal at h
  split_ifs at h with h1 h2 h3 <;> injection h with h <;> omega

lemma hexVal_hexChar : ∀ n, n < 16 → hexVal (hexChar n) = some n := by
  decide

lemma parseHexList_map_hexChar : ∀ (l : List Nat), (∀ x ∈ l, x < 16) →
    parseHexList (l.map hexChar) = some l
  | [], _ => rfl
  | x :: xs, h => by
    have hx : hexVal (hexChar x) = some x :=
      hexVal_hexChar x (h x (List.mem_cons_self x xs))
    have hxs : parseHexList (xs.map hexChar) = some xs :=
      parseHexList_map_hexChar xs (fun y hy => h y (List.mem_cons_of_mem x hy))
    simp [parseHexList, hx, hxs]

lemma parseHexList_append_ok : ∀ (xs ys : List Char) (a b : List Nat),
    parseHexList xs = some a → parseHexList ys = some b →
    parseHexList (xs ++ ys) = some (a ++ b)
  | [], ys, a, b, ha, hb => by
    simp only [parseHexList] at ha
    injection ha with ha
    simpa [← ha] using hb
  | c :: cs, ys, a, b, ha, hb => by
    rw [List.cons_append]
    simp only [parseHexList, List.append_eq] at ha ⊢
    match hv : hexVal c, hrest : parseHexList cs with
    | some v, some vs =>
      rw [hv, hrest] at ha
      injection ha with ha
      rw [parseHexList_append_ok cs ys vs b hrest hb]
      simp [← ha]
    | some v, none => rw [hv, hrest] at ha; exact absurd ha (by simp)
    | none, _ => rw [hv] at ha; exact absurd ha (by simp)

lemma parseHexList_sound : ∀ (cs : List Char) (v : List Nat),
    parseHexList cs = some v → v.length = cs.length ∧ ∀ x ∈ v, x < 16
  | [], v, h => by
    simp only [parseHexList] at h
    injection h with h
    simp [← h]
  | c :: cs, v, h => by
    simp only [parseHexList] at h
    match hv : hexVal c, hrest : parseHexList cs with
    | some b, some bs =>
      rw [hv, hrest] at h
      injection h with h
      obtain ⟨h1, h2⟩ := parseHexList_sound cs bs hrest
      subst h
      refine ⟨by simp [h1], ?_⟩
      intro x hx
      rcases List.mem_cons.mp hx with hx | hx
      · exact hx ▸ hexVal_lt hv
      · exact h2 x hx
    | some b, none => rw [hv, hrest] at h; exact absurd h (by simp)
    | none, _ => rw [hv] at h; exact absurd h (by simp)

lemma take_len_append {α : Type} (l r : List α) (n : Nat) (h : l.length = n) :
    (l ++ r).take n = l := by
  subst h
  induction l with
  | nil => rfl
  | cons x xs ih => simp [ih]

lemma drop_len_append {α : Type} (l r : List α) (n : Nat) (h : l.length = n) :
    (l ++ r).drop n = r := by
  subst h
  induction l with
  | nil => rfl
  | cons x xs ih => simp [ih]

lemma string_mk_data (l : List Char) : (String.mk l).data = l := rfl

lemma parseHyphenated_sound (cs : List Char) (v : List Nat)
    (h : parseHyphenated cs = some v) : v.length = 32 ∧ ∀ x ∈ v, x < 16 := by
  unfold parseHyphenated at h
  repeat' split at h
  all_goals try exact Option.noConfusion h
  rename_i x3 r2 heq3 x2 r4 heq2 x1 r6 heq1 x0 g5 heq0 hcond
  obtain ⟨h8, h12⟩ := hcond
  obtain ⟨hlen, hlt⟩ := parseHexList_sound _ _ h
  refine ⟨?_, hlt⟩
  have l2 : 4 ≤ r2.length := by
    have h' := congrArg List.length heq2
    simp only [List.length_drop, List.length_cons] at h'
    omega
  have l4 : 4 ≤ r4.length := by
    have h' := congrArg List.length heq1
    simp only [List.length_drop, List.length_cons] at h'
    omega
  have l6 : 4 ≤ r6.length := by
    have h' := congrArg List.length heq0
    simp only [List.length_drop, List.length_cons] at h'
    omega
  rw [hlen]
  simp only [List.length_append]
  rw [h8, h12]
  simp only [List.length_take]
  omega

lemma uuid_parse_str_sound (s : String) (v : List Nat)
    (h : uuid_parse_str s = some v) : v.length = 32 ∧ ∀ x ∈ v, x < 16 := by
  unfold uuid_parse_str at h
  split at h
  · obtain ⟨h1, h2⟩ := parseHexList_sound _ _ h
    refine ⟨?_, h2⟩
    omega
  · exact parseHyphenated_sound _ _ h

lemma parseHyphenated_structured (A B C D E : List Char)
    (hA : A.length = 8) (hB : B.length = 4) (hC : C.length = 4)
    (hD : D.length = 4) (hE : E.length = 12) :
    parseHyphenated (A ++ '-' :: (B ++ '-' :: (C ++ '-' :: (D ++ '-' :: E)))) =
      parseHexList (A ++ B ++ C ++ D ++ E) := by
  unfold parseHyphenated
  rw [drop_len_append A ('-' :: (B ++ '-' :: (C ++ '-' :: (D ++ '-' :: E)))) 8 hA]
  simp only [drop_len_append B ('-' :: (C ++ '-' :: (D ++ '-' :: E))) 4 hB,
    drop_len_append C ('-' :: (D ++ '-' :: E)) 4 hC,
    drop_len_append D ('-' :: E) 4 hD,
    take_len_append A ('-' :: (B ++ '-' :: (C ++ '-' :: (D ++ '-' :: E)))) 8 hA,
    take_len_append B ('-' :: (C ++ '-' :: (D ++ '-' :: E))) 4 hB,
    take_len_append C ('-' :: (D ++ '-' :: E)) 4 hC,
    take_len_append D ('-' :: E) 4 hD,
    hA, hE, and_self, if_true]

lemma reassemble_uuid (u : List Nat) :
    (((u.take 8 ++ (u.drop 8).take 4) ++ (u.drop 12).take 4) ++
      (u.drop 16).take 4) ++ u.drop 20 = u := by
  have h12 : u.take 8 ++ (u.drop 8).take 4 = u.take 12 := by
    rw [show (12 : Nat) = 8 + 4 from rfl, List.take_add]
  have h16 : u.take 12 ++ (u.drop 12).take 4 = u.take 16 := by
    rw [show (16 : Nat) = 12 + 4 from rfl, List.take_add]
  have h20 : u.take 16 ++ (u.drop 16).take 4 = u.take 20 := by
    rw [show (20 : Nat) = 16 + 4 from rfl, List.take_add]
  rw [h12, h16, h20, List.take_append_drop]

lemma getD_set_self (v : Nat) : ∀ (l : List Nat) (n : Nat), n < l.length →
    (l.set n v).getD n 0 = v := by
  intro l
  induction l with
  | nil => intro n h; simp at h
  | cons x xs ih =>
    intro n h
    cases n with
    | zero => rfl
    | succ n =>
      show (x :: xs.set n v).getD (n + 1) 0 = v
      simp only [List.getD_cons_succ]
      exact ih n (by simpa using h)

lemma getD_set_ne (v : Nat) : ∀ (l : List Nat) (n m : Nat), n ≠ m →
    (l.set n v).getD m 0 = l.getD m 0 := by
  intro l
  induction l with
  | nil => intro n m h; simp [List.set]
  | cons x xs ih =>
    intro n m h
    cases n with
    | zero =>
      cases m with
      | zero => exact absurd rfl h
      | succ m => rfl
    | succ n =>
      cases m with
      | zero => rfl
      | succ m =>
        show (x :: xs.set n v).getD (m + 1) 0 = (x :: xs).getD (m + 1) 0
        simp only [List.getD_cons_succ]
        exact ih n m (fun hh => h (by rw [hh]))

lemma uuidRand_length (gen : List Nat) : (uuidRand gen).length = 32 := by
  unfold uuidRand
  simp only [List.length_map, List.length_take, List.length_append,
    List.length_replicate]
  omega

lemma uuidRand_lt (gen : List Nat) : ∀ x ∈ uuidRand gen, x < 16 := by
  intro x hx
  unfold uuidRand at hx
  obtain ⟨y, -, rfl⟩ := List.mem_map.mp hx
  omega

/-- A freshly generated v4 UUID nibble list is well formed: 32 nibbles, all
below 16, with the version nibble equal to `4`. -/
lemma uuid_new_v4_wf (gen : List Nat) :
    (uuid_new_v4 gen).length = 32 ∧ (∀ x ∈ uuid_new_v4 gen, x < 16) ∧
    (uuid_new_v4 gen).getD 12 0 = 4 := by
  unfold uuid_new_v4 uuidSetBits
  have hlen := uuidRand_length gen
  have hlt := uuidRand_lt gen
  refine ⟨by simp [hlen], ?_, ?_⟩
  · intro x hx
    rcases List.mem_or_eq_of_mem_set hx with hx | hx
    · rcases List.mem_or_eq_of_mem_set hx with hx | hx
      · exact hlt x hx
      · omega
    · omega
  · rw [getD_set_ne _ _ 16 12 (by omega)]
    exact getD_set_self 4 (uuidRand gen) 12 (by omega)

/-- The printer followed by the parser is the identity on well-formed UUID
nibble lists (32 nibbles, each below 16). -/
lemma uuid_roundtrip (u : List Nat) (hlen : u.length = 32)
    (hlt : ∀ x ∈ u, x < 16) :
    uuid_parse_str (uuid_to_string u) = some u := by
  have hA : ((u.take 8).map hexChar).length = 8 := by simp [hlen]
  have hB : (((u.drop 8).take 4).map hexChar).length = 4 := by simp [hlen]
  have hC : (((u.drop 12).take 4).map hexChar).length = 4 := by simp [hlen]
  have hD : (((u.drop 16).take 4).map hexChar).length = 4 := by simp [hlen]
  have hE : ((u.drop 20).map hexChar).length = 12 := by simp [hlen]
  have hpA : parseHexList ((u.take 8).map hexChar) = some (u.take 8) :=
    parseHexList_map_hexChar _ (fun x hx => hlt x (List.take_subset 8 u hx))
  have hpB : parseHexList (((u.drop 8).take 4).map hexChar) =
      some ((u.drop 8).take 4) :=
    parseHexList_map_hexChar _
      (fun x hx => hlt x (List.drop_subset 8 u (List.take_subset 4 _ hx)))
  have hpC : parseHexList (((u.drop 12).take 4).map hexChar) =
      some ((u.drop 12).take 4) :=
    parseHexList_map_hexChar _
      (fun x hx => hlt x (List.drop_subset 12 u (List.take_subset 4 _ hx)))
  have hpD : parseHexList (((u.drop 16).take 4).map hexChar) =
      some ((u.drop 16).take 4) :=
    parseHexList_map_hexChar _
      (fun x hx => hlt x (List.drop_subset 16 u (List.take_subset 4 _ hx)))
  have hpE : parseHexList ((u.drop 20).map hexChar) = some (u.drop 20) :=
    parseHexList_map_hexChar _ (fun x hx => hlt x (List.drop_subset 20 u hx))
  unfold uuid_to_string uuid_parse_str
  simp only [string_mk_data]
  have hlenL : ((u.take 8).map hexChar ++ ['-'] ++
      ((u.drop 8).take 4).map hexChar ++ ['-'] ++
      ((u.drop 12).take 4).map hexChar ++ ['-'] ++
      ((u.drop 16).take 4).map hexChar ++ ['-'] ++
      (u.drop 20).map hexChar).length = 36 := by
    simp only [List.length_append, List.length_map, List.length_take,
      List.length_drop, List.length_singleton, hlen]
    omega
  rw [if_neg (by rw [hlenL]; omega)]
  have hassoc : (u.take 8).map hexChar ++ ['-'] ++
      ((u.drop 8).take 4).map hexChar ++ ['-'] ++
      ((u.drop 12).take 4).map hexChar ++ ['-'] ++
      ((u.drop 16).take 4).map hexChar ++ ['-'] ++
      (u.drop 20).map hexChar =
      (u.take 8).map hexChar ++ '-' :: (((u.drop 8).take 4).map hexChar ++
        '-' :: (((u.drop 12).take 4).map hexChar ++
          '-' :: (((u.drop 16).take 4).map hexChar ++
            '-' :: (u.drop 20).map hexChar))) := by
    simp [List.append_assoc]
  rw [hassoc, parseHyphenated_structured _ _ _ _ _ hA hB hC hD hE]
  have hAB := parseHexList_append_ok _ _ _ _ hpA hpB
  have hABC := parseHexList_append_ok _ _ _ _ hAB hpC
  have hABCD := parseHexList_append_ok _ _ _ _ hABC hpD
  have hABCDE := parseHexList_append_ok _ _ _ _ hABCD hpE
  rw [hABCDE, reassemble_uuid u]

/-- C5: `get_uuid` is total by construction (it returns a `String` for every
input); the literal tags `"openstack"` and `"hash_ek"` are returned exactly;
`"generate"` returns a freshly generated v4 UUID in canonical lowercase
form (it parses back to exactly the generated nibbles and its version
nibble is 4); a string that fails to parse as a UUID is replaced by such a
freshly generated v4 UUID; a string that parses (case-insensitively) is
returned in canonical lowercase form, so the uppercase test vector is
case-folded unchanged. -/
theorem get_uuid_spec (gen : List Nat) (s : String) :
    get_uuid gen "openstack" = "openstack"
  ∧ get_uuid gen "hash_ek" = "hash_ek"
  ∧ get_uuid gen "generate" = uuid_to_string (uuid_new_v4 gen)
  ∧ uuid_parse_str (uuid_to_string (uuid_new_v4 gen)) = some (uuid_new_v4 gen)
  ∧ (uuid_new_v4 gen).getD 12 0 = 4
  ∧ (s ≠ "openstack" → s ≠ "hash_ek" → s ≠ "generate" →
      uuid_parse_str s = none →
      get_uuid gen s = uuid_to_string (uuid_new_v4 gen))
  ∧ (∀ u, s ≠ "openstack" → s ≠ "hash_ek" → s ≠ "generate" →
      uuid_parse_str s = some u →
      get_uuid gen s = uuid_to_string u ∧
        uuid_parse_str (uuid_to_string u) = some u)
  ∧ get_uuid gen "D432FBB3-D2F1-4A97-9EF7-75BD81C00000" =
      "d432fbb3-d2f1-4a97-9ef7-75bd81c00000" := by
  obtain ⟨hwl, hwlt, hver⟩ := uuid_new_v4_wf gen
  refine ⟨rfl, rfl, rfl, uuid_roundtrip _ hwl hwlt, hver, ?_, ?_, rfl⟩
  · intro h1 h2 h3 hp
    simp [get_uuid, h1, h2, h3, hp]
  · intro u h1 h2 h3 hp
    obtain ⟨hl, hlt⟩ := uuid_parse_str_sound s u hp
    exact ⟨by simp [get_uuid, h1, h2, h3, hp], uuid_roundtrip u hl hlt⟩

/-- Witness for C5 at concrete inputs: the empty generator yields the
canonical nil-based v4 UUID for an unparseable input, and the uppercase
test vector is case-folded to its lowercase canonical form, which parses
back to its own nibbles. -/
theorem get_uuid_spec_witness :
    get_uuid [] "not-a-uuid" = "00000000-0000-4000-8000-000000000000"
  ∧ get_uuid [] "D432FBB3-D2F1-4A97-9EF7-75BD81C00000" =
      "d432fbb3-d2f1-4a97-9ef7-75bd81c00000"
  ∧ uuid_parse_str "d432fbb3-d2f1-4a97-9ef7-75bd81c00000" =
      some [13, 4, 3, 2, 15, 11, 11, 3, 13, 2, 15, 1, 4, 10, 9, 7,
            9, 14, 15, 7, 7, 5, 11, 13, 8, 1, 12, 0, 0, 0, 0, 0] := by
  refine ⟨?_, ?_, ?_⟩
  · have h := (get_uuid_spec [] "not-a-uuid").2.2.2.2.2.1
      (by decide) (by decide) (by decide) (by decide)
    exact h.trans (by decide)
  · exact (get_uuid_spec [] "x").2.2.2.2.2.2.2
  · have h := ((get_uuid_spec [] "D432FBB3-D2F1-4A97-9EF7-75BD81C00000").2.2.2.2.2.2.1
      [13, 4, 3, 2, 15, 11, 11, 3, 13, 2, 15, 1, 4, 10, 9, 7,
       9, 14, 15, 7, 7, 5, 11, 13, 8, 1, 12, 0, 0, 0, 0, 0]
      (by decide) (by decide) (by decide) (by decide)).2
    simpa using h

end Keylime
